import Mathlib

/-!
Shallow embedding of `pm2-monitor.js` (a PM2 process-health monitor that
detects restarts, polls restarted apps until they stabilize, checks
status/resource thresholds for stable apps, throttles Slack notifications,
and persists a bounded status history), together with theorems settling the
specification claims about it.

External effects are made explicit:
* the PM2 snapshot (`pm2 jlist`) becomes a `List ProcRecord` argument, or,
  for the stabilization poller, a list of per-tick fetch results;
* a Slack delivery attempt becomes a `Notification` value; whether the HTTP
  post succeeds is a `Bool` argument to `sendSlackNotification`;
* `Date.now()` becomes an explicit `Int` timestamp argument;
* the status-history file becomes an explicit read result / written list.
JS `Map` objects (`appRestartHistory`, `notificationThrottleCache`) are
embedded as insertion-ordered association lists with JS `Map.get`/`Map.set`
semantics.
-/

set_option autoImplicit false

namespace PM2Monitor

/-- CONFIG.THRESHOLDS.CPU (percent). -/
def THRESHOLDS_CPU : ℚ := 80

/-- CONFIG.THRESHOLDS.MEMORY (MB). -/
def THRESHOLDS_MEMORY : ℚ := 450

/-- The CONFIG throttle duration: suppress identical notifications for 30 s (30 * 1000 ms). -/
def THROTTLE_MS : Int := 30 * 1000

/-- CONFIG.RECHECK_INTERVAL_MS: 5-second polling interval. -/
def RECHECK_INTERVAL_MS : Nat := 5 * 1000

/-- CONFIG.RECHECK_MAX_ATTEMPTS: max 12 polling attempts. -/
def RECHECK_MAX_ATTEMPTS : Nat := 12

/-- CONFIG.RECHECK_TIMEOUT_SEC, the derived getter `(RECHECK_INTERVAL_MS / 1000) * RECHECK_MAX_ATTEMPTS`. -/
def RECHECK_TIMEOUT_SEC : Nat := (RECHECK_INTERVAL_MS / 1000) * RECHECK_MAX_ATTEMPTS

/-- CONFIG.WEB_SERVER.MAX_HISTORY: keep the last 1440 history records. -/
def MAX_HISTORY : Nat := 1440

/-- One normalized PM2 process record as produced by `getPm2Processes`
(`pm_id`, `name`, `status`, `restarts`, `cpu` %, `memory` MB).
The JS floats `cpu` and `memory` are embedded as rationals. -/
structure ProcRecord where
  pm_id : Nat
  name : String
  status : String
  restarts : Nat
  cpu : ℚ
  memory : ℚ
  deriving DecidableEq, Repr

/-- A Slack notification attempt: the arguments of one call to
`sendSlackNotification` (app name, alert title, message body, color). -/
structure Notification where
  appName : String
  title : String
  message : String
  color : String
  deriving DecidableEq, Repr

/-- JS `Map.get`: value of the first (unique) entry with the given key. -/
def mapGet {β : Type} (m : List (String × β)) (k : String) : Option β :=
  match m with
  | [] => none
  | (k', v) :: rest => if k' = k then some v else mapGet rest k

/-- JS `map.get(k) || 0` (for a numeric-valued map). -/
def mapGetD (m : List (String × Nat)) (k : String) : Nat :=
  (mapGet m k).getD 0

/-- JS `Map.set`: replace the value at an existing key in place (keeping its
insertion position), or append a new entry at the end. -/
def mapSet {β : Type} (m : List (String × β)) (k : String) (v : β) : List (String × β) :=
  match m with
  | [] => [(k, v)]
  | (k', v') :: rest => if k' = k then (k, v) :: rest else (k', v') :: mapSet rest k v

/-- The keys of an association list, in order. -/
def mapKeys {β : Type} (m : List (String × β)) : List String :=
  m.map (fun e => e.1)

/-- `appRestartHistory`: process name, mapped to the last observed aggregated
restart total. -/
def RestartHistory : Type := List (String × Nat)

/-- One iteration of the aggregation loops (lines 72-73 and 237-238):
`map.set(name, (map.get(name) || 0) + restarts)`. -/
def buildStep (m : List (String × Nat)) (proc : ProcRecord) : List (String × Nat) :=
  mapSet m proc.name (mapGetD m proc.name + proc.restarts)

/-- The first loop of `detectAndHandleRestarts` (lines 69-74): build
`currentRestartsByApp` by folding `buildStep` over the snapshot. -/
def buildRestartTotals (processes : List ProcRecord) : List (String × Nat) :=
  processes.foldl buildStep []

/-- The aggregated restart count of a name: the sum of `restarts` across all
instances sharing that name in the snapshot. -/
def sumRestarts (processes : List ProcRecord) (name : String) : Nat :=
  ((processes.filter (fun p => p.name = name)).map (fun p => p.restarts)).sum

/-- The notification emitted on line 80-81 for a detected restart. -/
def restartDetectedNotif (appName : String) : Notification :=
  { appName := appName,
    title := "Process Restart Detected",
    message := "A restart was detected for '" ++ appName ++
      "'. Monitoring status for up to " ++ toString RECHECK_TIMEOUT_SEC ++ " seconds.",
    color := "warning" }

/-- The state threaded through the second loop of `detectAndHandleRestarts`:
the `restartedApps` set (as the list of names in insertion order), the
notification attempts made, the names handed to `startPollingAppStatus`, and
the mutated `appRestartHistory`. -/
structure DetectState where
  restartedApps : List String
  notifications : List Notification
  pollsStarted : List String
  history : RestartHistory

/-- One iteration of the `for (const [appName, totalRestarts] of
currentRestartsByApp.entries())` loop (lines 76-85). -/
def detectStep (acc : DetectState) (entry : String × Nat) : DetectState :=
  let appName := entry.1
  let totalRestarts := entry.2
  match mapGet acc.history appName with
  | some prevRestarts =>
      if totalRestarts > prevRestarts then
        { restartedApps := acc.restartedApps ++ [appName],
          notifications := acc.notifications ++ [restartDetectedNotif appName],
          pollsStarted := acc.pollsStarted ++ [appName],
          history := mapSet acc.history appName totalRestarts }
      else
        { acc with history := mapSet acc.history appName totalRestarts }
  | none =>
      { acc with history := mapSet acc.history appName totalRestarts }

/-- `detectAndHandleRestarts` (lines 67-87), with the global
`appRestartHistory` passed in and the mutated version returned. -/
def detectAndHandleRestarts (history : RestartHistory) (processes : List ProcRecord) :
    DetectState :=
  (buildRestartTotals processes).foldl detectStep
    { restartedApps := [], notifications := [], pollsStarted := [], history := history }

/-- The seeding loop of `initialize` (lines 236-239): starting from the empty
`appRestartHistory`, fold `set(name, (get(name) || 0) + restarts)` over the
initial snapshot. -/
def seedRestartHistory (initialProcesses : List ProcRecord) : RestartHistory :=
  initialProcesses.foldl buildStep []

/-- The status alert of line 140 for a non-online process. -/
def statusAlertNotif (proc : ProcRecord) : Notification :=
  { appName := proc.name,
    title := "Process Status Alert",
    message := "Instance `" ++ toString proc.pm_id ++ "` has a status of `" ++ proc.status ++ "`.",
    color := "danger" }

/-- The high-CPU warning of line 143. -/
def highCpuNotif (proc : ProcRecord) : Notification :=
  { appName := proc.name,
    title := "High CPU Usage",
    message := "Instance `" ++ toString proc.pm_id ++ "` is using `" ++ toString proc.cpu ++ "%` CPU.",
    color := "warning" }

/-- The high-memory warning of line 146. -/
def highMemoryNotif (proc : ProcRecord) : Notification :=
  { appName := proc.name,
    title := "High Memory Usage",
    message := "Instance `" ++ toString proc.pm_id ++ "` is using `" ++ toString proc.memory ++ "MB` of memory.",
    color := "warning" }

/-- The body of the `checkStableProcesses` loop (lines 133-149) for one
process record: skipped entirely when its name is in `restartedApps`;
otherwise a status alert when not online, else independent CPU and memory
threshold warnings. -/
def checkOneProcess (restartedApps : List String) (proc : ProcRecord) : List Notification :=
  if proc.name ∈ restartedApps then []
  else if proc.status ≠ "online" then [statusAlertNotif proc]
  else
    (if proc.cpu > THRESHOLDS_CPU then [highCpuNotif proc] else []) ++
    (if proc.memory > THRESHOLDS_MEMORY then [highMemoryNotif proc] else [])

/-- `checkStableProcesses` (lines 132-150): the notification attempts made for
a snapshot, given the restarted-apps set of the cycle. -/
def checkStableProcesses (processes : List ProcRecord) (restartedApps : List String) :
    List Notification :=
  processes.flatMap (checkOneProcess restartedApps)

/-- The outcome of one `getPm2Processes()` call inside the polling timer:
either a snapshot, or a thrown error with its message. -/
inductive FetchResult where
  | ok (processes : List ProcRecord)
  | error (message : String)
  deriving DecidableEq, Repr

/-- The terminal state reached by one run of the polling timer, carrying the
notification it emitted. -/
inductive PollOutcome where
  | stabilized (n : Notification)
  | failed (n : Notification)
  | errored (n : Notification)
  deriving DecidableEq, Repr

/-- A default record used only for the (guarded) `appInstances[0]` access. -/
def defaultProc : ProcRecord :=
  { pm_id := 0, name := "", status := "", restarts := 0, cpu := 0, memory := 0 }

/-- The success notification of lines 105-108, reading CPU/memory from
`appInstances[0]`. -/
def restartSuccessNotif (appName : String) (appInstances : List ProcRecord) : Notification :=
  let inst := appInstances.headD defaultProc
  { appName := appName,
    title := "Restart Successful",
    message := "App '" ++ appName ++ "' successfully restarted and is now 'online'.\n(CPU: " ++
      toString inst.cpu ++ "%, Memory: " ++ toString inst.memory ++ "MB)",
    color := "good" }

/-- The failure notification of lines 115-119: list each instance's id and
status, or report that the process could not be found. -/
def restartFailedNotif (appName : String) (appInstances : List ProcRecord) : Notification :=
  let reason :=
    if appInstances.length > 0 then
      "Current status:\n- " ++ String.intercalate "\n- "
        (appInstances.map (fun p => "ID " ++ toString p.pm_id ++ ": " ++ p.status))
    else "Could not find process."
  { appName := appName,
    title := "Restart Failed",
    message := "App '" ++ appName ++ "' failed to become 'online' within the time limit.\n" ++ reason,
    color := "danger" }

/-- The error notification of line 124, emitted when a poll's snapshot fetch
throws. -/
def pollErrorNotif (appName : String) (errMessage : String) : Notification :=
  { appName := appName,
    title := "Status Polling Error for '" ++ appName ++ "'",
    message := errMessage,
    color := "danger" }

/-- Line 100: `processes.filter(p => p.name === appName)`. -/
def appInstancesOf (appName : String) (processes : List ProcRecord) : List ProcRecord :=
  processes.filter (fun p => p.name = appName)

/-- Line 101: `appInstances.length > 0 && appInstances.every(p => p.status === 'online')`. -/
def isAllOnline (appInstances : List ProcRecord) : Bool :=
  appInstances.length > 0 && appInstances.all (fun p => p.status == "online")

/-- The timer body of `startPollingAppStatus` (lines 94-126), unrolled over an
explicit list of per-tick fetch results. `attempts` is the mutable counter
(incremented at the top of each tick). Returns the number of samples consumed
together with the terminal outcome, or `none` when the supplied fetch stream
runs out before the poll terminates. -/
def runPollAux (appName : String) (attempts : Nat) :
    List FetchResult → Option (Nat × PollOutcome)
  | [] => none
  | fetch :: rest =>
    let att := attempts + 1
    match fetch with
    | .error msg => some (att, .errored (pollErrorNotif appName msg))
    | .ok processes =>
      let appInstances := appInstancesOf appName processes
      if isAllOnline appInstances then
        some (att, .stabilized (restartSuccessNotif appName appInstances))
      else if att ≥ RECHECK_MAX_ATTEMPTS then
        some (att, .failed (restartFailedNotif appName appInstances))
      else runPollAux appName att rest

/-- `startPollingAppStatus` (lines 92-127): run the timer from `attempts = 0`
over the given stream of fetch results. -/
def startPollingAppStatus (appName : String) (fetches : List FetchResult) :
    Option (Nat × PollOutcome) :=
  runPollAux appName 0 fetches

/-- `notificationThrottleCache`: throttle key, mapped to the timestamp of the
last successful delivery. -/
def ThrottleCache : Type := List (String × Int)

/-- Line 176: the throttle key of a notification. -/
def throttleKey (appName title : String) : String :=
  appName ++ "::" ++ title

/-- The result of one `sendSlackNotification` call: the (possibly updated)
throttle cache, and whether a delivery attempt was made (`false` when the
call returned early as throttled). -/
structure SendResult where
  cache : ThrottleCache
  attempted : Bool

/-- `sendSlackNotification` (lines 175-191), with the global cache, the
current time, and the outcome of the HTTP post (`deliverySucceeds`) passed
explicitly. A throw from `axios.post` is caught inside the function (lines
188-190), so the embedding is total: a failed delivery logs, leaves the
cache untouched, and returns. Only a successful delivery records `now`
under the key. -/
def sendSlackNotification (cache : ThrottleCache) (now : Int)
    (appName title message color : String) (deliverySucceeds : Bool) : SendResult :=
  let key := throttleKey appName title
  match mapGet cache key with
  | some prev =>
      if now - prev < THROTTLE_MS then
        { cache := cache, attempted := false }
      else if deliverySucceeds then
        { cache := mapSet cache key now, attempted := true }
      else
        { cache := cache, attempted := true }
  | none =>
      if deliverySucceeds then
        { cache := mapSet cache key now, attempted := true }
      else
        { cache := cache, attempted := true }

/-- One record of the status-history file. -/
structure HistoryLogEntry where
  timestamp : String
  processes : List ProcRecord
  deriving DecidableEq, Repr

/-- The outcome of `fs.readFile` + `JSON.parse` in `logStatusToFile`:
contents parsed, file absent (ENOENT), or any other read/parse error. -/
inductive ReadStatus where
  | ok (entries : List HistoryLogEntry)
  | enoent
  | otherError (message : String)

/-- `logStatusToFile` (lines 269-282): read the history (treating every
failure as an empty history; a non-ENOENT failure is additionally logged),
prepend the new entry (`unshift`), truncate to `MAX_HISTORY` (`slice(0, MAX)`),
and write the result back. Returns the new file contents. -/
def logStatusToFile (readResult : ReadStatus) (entry : HistoryLogEntry) :
    List HistoryLogEntry :=
  let history :=
    match readResult with
    | .ok entries => entries
    | .enoent => []
    | .otherError _ => []
  (entry :: history).take MAX_HISTORY

/-- The history file after a sequence of appends, each reading back what the
previous one wrote. -/
def appendAll (initial : List HistoryLogEntry) (entries : List HistoryLogEntry) :
    List HistoryLogEntry :=
  entries.foldl (fun file e => logStatusToFile (.ok file) e) initial

/-- The per-cycle results of `monitorProcesses` (lines 50-62) on one snapshot:
restart detection followed by the stable-process check over the same snapshot. -/
structure CycleResult where
  restartedApps : List String
  restartNotifs : List Notification
  stableNotifs : List Notification
  newHistory : RestartHistory

/-- Lines 52-54 of `monitorProcesses`: detect restarts, then check the
processes not flagged as restarted. -/
def monitorCycle (history : RestartHistory) (processes : List ProcRecord) : CycleResult :=
  let d := detectAndHandleRestarts history processes
  { restartedApps := d.restartedApps,
    restartNotifs := d.notifications,
    stableNotifs := checkStableProcesses processes d.restartedApps,
    newHistory := d.history }

/-- How many notification attempts in a list carry a given app name together
with the restart-detected title. -/
def restartNotifCount (notifs : List Notification) (name : String) : Nat :=
  notifs.countP (fun n => n.appName == name && n.title == "Process Restart Detected")

/-- How many times a name occurs in the list of polls started. -/
def pollCount (polls : List String) (name : String) : Nat :=
  polls.countP (fun x => x == name)

/-- Sample record for concrete instantiations: an `api` instance. -/
def apiProc : ProcRecord :=
  { pm_id := 0, name := "api", status := "online", restarts := 5, cpu := 2, memory := 100 }

/-- Sample record for concrete instantiations: the spec's `worker` scenario
(CPU 85 % against the 80 % ceiling, memory 300 MB against the 450 MB ceiling). -/
def workerProc : ProcRecord :=
  { pm_id := 1, name := "worker", status := "online", restarts := 0, cpu := 85, memory := 300 }

/-! ### Association-map lemmas -/

@[simp]
theorem mapKeys_nil {β : Type} : mapKeys ([] : List (String × β)) = [] := rfl

@[simp]
theorem mapKeys_cons {β : Type} (e : String × β) (rest : List (String × β)) :
    mapKeys (e :: rest) = e.1 :: mapKeys rest := rfl

theorem mapGet_mapSet_self {β : Type} (m : List (String × β)) (k : String) (v : β) :
    mapGet (mapSet m k v) k = some v := by
  induction m with
  | nil => simp [mapGet, mapSet]
  | cons e rest ih =>
    obtain ⟨k', v'⟩ := e
    by_cases h : k' = k
    · simp [mapGet, mapSet, h]
    · simp [mapGet, mapSet, h, ih]

theorem mapGet_mapSet_ne {β : Type} (m : List (String × β)) (k k' : String) (v : β)
    (h : k' ≠ k) : mapGet (mapSet m k' v) k = mapGet m k := by
  induction m with
  | nil => simp [mapGet, mapSet, h]
  | cons e rest ih =>
    obtain ⟨k₀, v₀⟩ := e
    by_cases h0 : k₀ = k'
    · subst h0
      simp [mapGet, mapSet, h, h.symm]
    · by_cases h1 : k₀ = k <;> simp [mapGet, mapSet, h0, h1, ih, Ne.symm h]

theorem mapKeys_mapSet {β : Type} (m : List (String × β)) (k : String) (v : β) :
    mapKeys (mapSet m k v) = if k ∈ mapKeys m then mapKeys m else mapKeys m ++ [k] := by
  induction m with
  | nil => simp [mapSet]
  | cons e rest ih =>
    obtain ⟨k₀, v₀⟩ := e
    by_cases h0 : k₀ = k
    · subst h0
      simp [mapSet]
    · have hne : k ≠ k₀ := fun hh => h0 hh.symm
      rw [show mapSet ((k₀, v₀) :: rest) k v = (k₀, v₀) :: mapSet rest k v by
        simp [mapSet, h0]]
      rw [mapKeys_cons, mapKeys_cons, ih]
      by_cases hk : k ∈ mapKeys rest
      · simp [hk]
      · simp [hk, hne]

theorem nodup_mapKeys_mapSet {β : Type} (m : List (String × β)) (k : String) (v : β)
    (h : (mapKeys m).Nodup) : (mapKeys (mapSet m k v)).Nodup := by
  rw [mapKeys_mapSet]
  by_cases hk : k ∈ mapKeys m
  · simpa [hk] using h
  · simp only [hk, if_false]
    simpa [List.nodup_append] using ⟨h, hk⟩

theorem mem_mapKeys_of_mem {β : Type} {m : List (String × β)} {k : String} {v : β}
    (h : (k, v) ∈ m) : k ∈ mapKeys m :=
  List.mem_map_of_mem (fun x => x.1) h

theorem mapGet_eq_some_of_mem {β : Type} (m : List (String × β)) (k : String) (v : β)
    (hnd : (mapKeys m).Nodup) (hmem : (k, v) ∈ m) : mapGet m k = some v := by
  induction m with
  | nil => simp at hmem
  | cons e rest ih =>
    obtain ⟨k₀, v₀⟩ := e
    rw [mapKeys_cons, List.nodup_cons] at hnd
    rcases List.mem_cons.mp hmem with h | h
    · rw [Prod.mk.injEq] at h
      obtain ⟨h1, h2⟩ := h
      subst h1
      subst h2
      simp [mapGet]
    · have hk0 : k₀ ≠ k := by
        intro hEq
        subst hEq
        exact hnd.1 (mem_mapKeys_of_mem h)
      simp [mapGet, hk0, ih hnd.2 h]

/-! ### Aggregation lemmas: the `currentRestartsByApp` map computes, for each
name, the sum of `restarts` over the instances sharing that name. -/

theorem sumRestarts_nil (name : String) : sumRestarts [] name = 0 := rfl

theorem sumRestarts_cons (p : ProcRecord) (ps : List ProcRecord) (name : String) :
    sumRestarts (p :: ps) name =
      (if p.name = name then p.restarts else 0) + sumRestarts ps name := by
  by_cases h : p.name = name <;> simp [sumRestarts, List.filter_cons, h]

theorem foldl_buildStep_mapGet_some (name : String) :
    ∀ (ps : List ProcRecord) (acc : List (String × Nat)) (v : Nat),
    mapGet acc name = some v →
    mapGet (ps.foldl buildStep acc) name = some (v + sumRestarts ps name) := by
  intro ps
  induction ps with
  | nil =>
    intro acc v h
    simpa [sumRestarts_nil] using h
  | cons p rest ih =>
    intro acc v h
    rw [List.foldl_cons]
    by_cases hn : p.name = name
    · have hd : mapGetD acc p.name = v := by
        rw [hn]
        simp [mapGetD, h]
      have hstep : mapGet (buildStep acc p) name = some (v + p.restarts) := by
        rw [buildStep, hd, hn]
        exact mapGet_mapSet_self acc name (v + p.restarts)
      rw [ih (buildStep acc p) (v + p.restarts) hstep, sumRestarts_cons, if_pos hn,
        Nat.add_assoc]
    · have hstep : mapGet (buildStep acc p) name = mapGet acc name :=
        mapGet_mapSet_ne acc name p.name (mapGetD acc p.name + p.restarts) hn
      rw [ih (buildStep acc p) v (hstep.trans h), sumRestarts_cons, if_neg hn, Nat.zero_add]

theorem foldl_buildStep_mapGet_none (name : String) :
    ∀ (ps : List ProcRecord) (acc : List (String × Nat)),
    mapGet acc name = none →
    (ps.any (fun p => p.name == name)) = true →
    mapGet (ps.foldl buildStep acc) name = some (sumRestarts ps name) := by
  intro ps
  induction ps with
  | nil =>
    intro acc h hany
    simp at hany
  | cons p rest ih =>
    intro acc h hany
    rw [List.foldl_cons]
    by_cases hn : p.name = name
    · have hd : mapGetD acc p.name = 0 := by
        rw [hn]
        simp [mapGetD, h]
      have hstep : mapGet (buildStep acc p) name = some p.restarts := by
        rw [buildStep, hd, hn, Nat.zero_add]
        exact mapGet_mapSet_self acc name p.restarts
      rw [foldl_buildStep_mapGet_some name rest (buildStep acc p) p.restarts hstep,
        sumRestarts_cons, if_pos hn]
    · have hstep : mapGet (buildStep acc p) name = mapGet acc name :=
        mapGet_mapSet_ne acc name p.name (mapGetD acc p.name + p.restarts) hn
      have hany' : (rest.any (fun p => p.name == name)) = true := by
        rcases List.any_eq_true.mp hany with ⟨q, hq, hqn⟩
        rcases List.mem_cons.mp hq with rfl | hq'
        · exact absurd (by simpa using hqn) hn
        · exact List.any_eq_true.mpr ⟨q, hq', hqn⟩
      rw [ih (buildStep acc p) (hstep.trans h) hany', sumRestarts_cons, if_neg hn,
        Nat.zero_add]

theorem mapGet_buildRestartTotals (ps : List ProcRecord) (name : String)
    (hany : (ps.any (fun p => p.name == name)) = true) :
    mapGet (buildRestartTotals ps) name = some (sumRestarts ps name) :=
  foldl_buildStep_mapGet_none name ps [] rfl hany

theorem nodup_mapKeys_foldl_buildStep :
    ∀ (ps : List ProcRecord) (acc : List (String × Nat)),
    (mapKeys acc).Nodup → (mapKeys (ps.foldl buildStep acc)).Nodup := by
  intro ps
  induction ps with
  | nil => intro acc h; simpa using h
  | cons p rest ih =>
    intro acc h
    rw [List.foldl_cons]
    exact ih (buildStep acc p) (nodup_mapKeys_mapSet acc p.name _ h)

theorem nodup_mapKeys_buildRestartTotals (ps : List ProcRecord) :
    (mapKeys (buildRestartTotals ps)).Nodup :=
  nodup_mapKeys_foldl_buildStep ps [] (by simp)

theorem mapGet_eq_none_iff {β : Type} (m : List (String × β)) (k : String) :
    mapGet m k = none ↔ k ∉ mapKeys m := by
  induction m with
  | nil => simp [mapGet]
  | cons e rest ih =>
    obtain ⟨k₀, v₀⟩ := e
    by_cases h0 : k₀ = k
    · simp [mapGet, h0]
    · have hne : k ≠ k₀ := fun hh => h0 hh.symm
      simp [mapGet, h0, ih, hne]

theorem fst_mem_mapKeys {β : Type} {m : List (String × β)} {e : String × β}
    (h : e ∈ m) : e.1 ∈ mapKeys m :=
  List.mem_map_of_mem (fun x => x.1) h

/-! ### Lemmas about the restart-detection loop -/

theorem detectStep_other (acc : DetectState) (e : String × Nat) (name : String)
    (h : e.1 ≠ name) :
    mapGet (detectStep acc e).history name = mapGet acc.history name ∧
    restartNotifCount (detectStep acc e).notifications name
      = restartNotifCount acc.notifications name ∧
    pollCount (detectStep acc e).pollsStarted name = pollCount acc.pollsStarted name ∧
    (name ∈ (detectStep acc e).restartedApps ↔ name ∈ acc.restartedApps) := by
  obtain ⟨k, v⟩ := e
  replace h : k ≠ name := h
  cases hg : mapGet acc.history k with
  | none =>
    simp [detectStep, hg, mapGet_mapSet_ne acc.history name k v h]
  | some prev =>
    by_cases hgt : v > prev
    · refine ⟨?_, ?_, ?_, ?_⟩
      · simp [detectStep, hg, hgt, mapGet_mapSet_ne acc.history name k v h]
      · simp [detectStep, hg, hgt, restartNotifCount, restartDetectedNotif, h]
      · simp [detectStep, hg, hgt, pollCount, h]
      · simp [detectStep, hg, hgt, Ne.symm h]
    · simp [detectStep, hg, hgt, mapGet_mapSet_ne acc.history name k v h]

theorem detectStep_history_self (acc : DetectState) (k : String) (v : Nat) :
    mapGet (detectStep acc (k, v)).history k = some v := by
  cases hg : mapGet acc.history k with
  | none => simp [detectStep, hg, mapGet_mapSet_self]
  | some prev =>
    by_cases hgt : v > prev <;> simp [detectStep, hg, hgt, mapGet_mapSet_self]

theorem detectStep_restart (acc : DetectState) (k : String) (v prev : Nat)
    (hg : mapGet acc.history k = some prev) (hgt : v > prev) :
    detectStep acc (k, v) =
      { restartedApps := acc.restartedApps ++ [k],
        notifications := acc.notifications ++ [restartDetectedNotif k],
        pollsStarted := acc.pollsStarted ++ [k],
        history := mapSet acc.history k v } := by
  simp [detectStep, hg, hgt]

theorem detectStep_no_restart (acc : DetectState) (k : String) (v prev : Nat)
    (hg : mapGet acc.history k = some prev) (hgt : ¬(v > prev)) :
    detectStep acc (k, v) = { acc with history := mapSet acc.history k v } := by
  simp [detectStep, hg, hgt]

theorem detectStep_new (acc : DetectState) (k : String) (v : Nat)
    (hg : mapGet acc.history k = none) :
    detectStep acc (k, v) = { acc with history := mapSet acc.history k v } := by
  simp [detectStep, hg]

theorem detectFold_skip (name : String) :
    ∀ (l : List (String × Nat)) (acc : DetectState),
    (∀ e ∈ l, e.1 ≠ name) →
    mapGet ((l.foldl detectStep acc).history) name = mapGet acc.history name ∧
    restartNotifCount (l.foldl detectStep acc).notifications name
      = restartNotifCount acc.notifications name ∧
    pollCount (l.foldl detectStep acc).pollsStarted name
      = pollCount acc.pollsStarted name ∧
    (name ∈ (l.foldl detectStep acc).restartedApps ↔ name ∈ acc.restartedApps) := by
  intro l
  induction l with
  | nil =>
    intro acc h
    simp
  | cons e rest ih =>
    intro acc h
    rw [List.foldl_cons]
    have he : e.1 ≠ name := h e (List.mem_cons_self e rest)
    obtain ⟨o1, o2, o3, o4⟩ := detectStep_other acc e name he
    obtain ⟨i1, i2, i3, i4⟩ :=
      ih (detectStep acc e) (fun e' he' => h e' (List.mem_cons_of_mem e he'))
    exact ⟨i1.trans o1, i2.trans o2, i3.trans o3, i4.trans o4⟩

theorem detectFold_history (name : String) (total : Nat) :
    ∀ (l : List (String × Nat)), (mapKeys l).Nodup → mapGet l name = some total →
    ∀ acc : DetectState,
    mapGet ((l.foldl detectStep acc).history) name = some total := by
  intro l
  induction l with
  | nil =>
    intro _ hl
    simp [mapGet] at hl
  | cons e rest ih =>
    obtain ⟨k, v⟩ := e
    intro hnd hl acc
    rw [mapKeys_cons, List.nodup_cons] at hnd
    rw [List.foldl_cons]
    by_cases hk : k = name
    · subst hk
      have hv : v = total := by simpa [mapGet] using hl
      subst hv
      have hrest : ∀ e' ∈ rest, e'.1 ≠ k := by
        intro e' he' heq
        have hmem : e'.1 ∈ mapKeys rest := fst_mem_mapKeys he'
        rw [heq] at hmem
        exact hnd.1 hmem
      exact ((detectFold_skip k rest (detectStep acc (k, v)) hrest).1).trans
        (detectStep_history_self acc k v)
    · have hl' : mapGet rest name = some total := by simpa [mapGet, hk] using hl
      exact ih hnd.2 hl' (detectStep acc (k, v))

theorem detectFold_restart (name : String) (total : Nat) :
    ∀ (l : List (String × Nat)), (mapKeys l).Nodup → mapGet l name = some total →
    ∀ (acc : DetectState) (prev : Nat),
    mapGet acc.history name = some prev → total > prev →
    name ∈ (l.foldl detectStep acc).restartedApps ∧
    restartNotifCount (l.foldl detectStep acc).notifications name
      = restartNotifCount acc.notifications name + 1 ∧
    pollCount (l.foldl detectStep acc).pollsStarted name
      = pollCount acc.pollsStarted name + 1 := by
  intro l
  induction l with
  | nil =>
    intro _ hl
    simp [mapGet] at hl
  | cons e rest ih =>
    obtain ⟨k, v⟩ := e
    intro hnd hl acc prev hg hgt
    rw [mapKeys_cons, List.nodup_cons] at hnd
    rw [List.foldl_cons]
    by_cases hk : k = name
    · subst hk
      have hv : v = total := by simpa [mapGet] using hl
      subst hv
      have hrest : ∀ e' ∈ rest, e'.1 ≠ k := by
        intro e' he' heq
        have hmem : e'.1 ∈ mapKeys rest := fst_mem_mapKeys he'
        rw [heq] at hmem
        exact hnd.1 hmem
      rw [detectStep_restart acc k v prev hg hgt]
      refine ⟨?_, ?_, ?_⟩
      · exact ((detectFold_skip k rest _ hrest).2.2.2).mpr (by simp)
      · rw [(detectFold_skip k rest _ hrest).2.1]
        simp [restartNotifCount, restartDetectedNotif]
      · rw [(detectFold_skip k rest _ hrest).2.2.1]
        simp [pollCount]
    · have hl' : mapGet rest name = some total := by simpa [mapGet, hk] using hl
      obtain ⟨o1, o2, o3, _⟩ := detectStep_other acc (k, v) name hk
      obtain ⟨r1, r2, r3⟩ :=
        ih hnd.2 hl' (detectStep acc (k, v)) prev (o1.trans hg) hgt
      exact ⟨r1, by rw [r2, o2], by rw [r3, o3]⟩

theorem detectFold_new_name (name : String) (total : Nat) :
    ∀ (l : List (String × Nat)), (mapKeys l).Nodup → mapGet l name = some total →
    ∀ acc : DetectState, mapGet acc.history name = none →
    (name ∈ (l.foldl detectStep acc).restartedApps ↔ name ∈ acc.restartedApps) ∧
    restartNotifCount (l.foldl detectStep acc).notifications name
      = restartNotifCount acc.notifications name ∧
    pollCount (l.foldl detectStep acc).pollsStarted name
      = pollCount acc.pollsStarted name := by
  intro l
  induction l with
  | nil =>
    intro _ hl
    simp [mapGet] at hl
  | cons e rest ih =>
    obtain ⟨k, v⟩ := e
    intro hnd hl acc hg
    rw [mapKeys_cons, List.nodup_cons] at hnd
    rw [List.foldl_cons]
    by_cases hk : k = name
    · subst hk
      have hv : v = total := by simpa [mapGet] using hl
      subst hv
      have hrest : ∀ e' ∈ rest, e'.1 ≠ k := by
        intro e' he' heq
        have hmem : e'.1 ∈ mapKeys rest := fst_mem_mapKeys he'
        rw [heq] at hmem
        exact hnd.1 hmem
      rw [detectStep_new acc k v hg]
      exact ⟨(detectFold_skip k rest _ hrest).2.2.2,
        (detectFold_skip k rest _ hrest).2.1,
        (detectFold_skip k rest _ hrest).2.2.1⟩
    · have hl' : mapGet rest name = some total := by simpa [mapGet, hk] using hl
      obtain ⟨o1, o2, o3, o4⟩ := detectStep_other acc (k, v) name hk
      obtain ⟨r1, r2, r3⟩ := ih hnd.2 hl' (detectStep acc (k, v)) (o1.trans hg)
      exact ⟨r1.trans o4, r2.trans o2, r3.trans o3⟩

theorem detectFold_no_change :
    ∀ (l : List (String × Nat)), (mapKeys l).Nodup →
    ∀ acc : DetectState, (∀ e ∈ l, mapGet acc.history e.1 = some e.2) →
    (l.foldl detectStep acc).restartedApps = acc.restartedApps ∧
    (l.foldl detectStep acc).notifications = acc.notifications ∧
    (l.foldl detectStep acc).pollsStarted = acc.pollsStarted := by
  intro l
  induction l with
  | nil =>
    intro _ acc _
    simp
  | cons e rest ih =>
    obtain ⟨k, v⟩ := e
    intro hnd acc h
    rw [mapKeys_cons, List.nodup_cons] at hnd
    rw [List.foldl_cons]
    have hg : mapGet acc.history k = some v := h (k, v) (List.mem_cons_self _ _)
    rw [detectStep_no_restart acc k v v hg (by omega)]
    refine ih hnd.2 _ ?_
    intro e' he'
    have hne : k ≠ e'.1 := by
      intro heq
      have hmem : e'.1 ∈ mapKeys rest := fst_mem_mapKeys he'
      rw [← heq] at hmem
      exact hnd.1 hmem
    show mapGet (mapSet acc.history k v) e'.1 = some e'.2
    rw [mapGet_mapSet_ne acc.history e'.1 k v hne]
    exact h e' (List.mem_cons_of_mem _ he')

/-! ### Lemmas about the stabilization poller -/

theorem runPollAux_cons_ok (appName : String) (a : Nat) (s : List ProcRecord)
    (fs : List FetchResult) :
    runPollAux appName a (FetchResult.ok s :: fs) =
      (if isAllOnline (appInstancesOf appName s) then
        some (a + 1, PollOutcome.stabilized (restartSuccessNotif appName (appInstancesOf appName s)))
      else if a + 1 ≥ RECHECK_MAX_ATTEMPTS then
        some (a + 1, PollOutcome.failed (restartFailedNotif appName (appInstancesOf appName s)))
      else runPollAux appName (a + 1) fs) := rfl

theorem runPollAux_cons_error (appName : String) (a : Nat) (msg : String)
    (fs : List FetchResult) :
    runPollAux appName a (FetchResult.error msg :: fs) =
      some (a + 1, PollOutcome.errored (pollErrorNotif appName msg)) := rfl

theorem runPollAux_ok_spec (appName : String) :
    ∀ (samples : List (List ProcRecord)) (a b : Nat),
    a + b = RECHECK_MAX_ATTEMPTS → 1 ≤ b → b ≤ samples.length →
    ((∃ s ∈ samples.take b, isAllOnline (appInstancesOf appName s) = true) →
      ∃ k n, runPollAux appName a (samples.map FetchResult.ok)
          = some (k, PollOutcome.stabilized n) ∧ k ≤ RECHECK_MAX_ATTEMPTS) ∧
    ((∀ s ∈ samples.take b, isAllOnline (appInstancesOf appName s) = false) →
      ∃ s, samples.get? (b - 1) = some s ∧
        runPollAux appName a (samples.map FetchResult.ok)
          = some (RECHECK_MAX_ATTEMPTS, PollOutcome.failed
              (restartFailedNotif appName (appInstancesOf appName s)))) := by
  intro samples
  induction samples with
  | nil =>
    intro a b _ hb hblen
    simp at hblen
    omega
  | cons s rest ih =>
    intro a b hab hb hblen
    cases b with
    | zero => omega
    | succ b' =>
      rw [List.map_cons, List.take_succ_cons]
      by_cases hon : isAllOnline (appInstancesOf appName s) = true
      · constructor
        · intro _
          refine ⟨a + 1, restartSuccessNotif appName (appInstancesOf appName s), ?_, by omega⟩
          rw [runPollAux_cons_ok, if_pos hon]
        · intro hall
          have := hall s (List.mem_cons_self s _)
          rw [hon] at this
          cases this
      · replace hon : isAllOnline (appInstancesOf appName s) = false := by
          simpa using hon
        cases b' with
        | zero =>
          have ha1 : a + 1 = RECHECK_MAX_ATTEMPTS := by omega
          constructor
          · intro hex
            obtain ⟨s', hs', hs'on⟩ := hex
            rw [List.take_zero] at hs'
            rcases List.mem_cons.mp hs' with rfl | habs
            · rw [hon] at hs'on
              cases hs'on
            · simp at habs
          · intro _
            refine ⟨s, by simp, ?_⟩
            rw [runPollAux_cons_ok, if_neg (by simp [hon]), if_pos (by omega), ha1]
        | succ b'' =>
          have hstep : runPollAux appName a (List.map FetchResult.ok (s :: rest))
              = runPollAux appName (a + 1) (rest.map FetchResult.ok) := by
            rw [List.map_cons, runPollAux_cons_ok, if_neg (by simp [hon]),
              if_neg (by omega)]
          obtain ⟨ih1, ih2⟩ := ih (a + 1) (b'' + 1) (by omega) (by omega)
            (by simp at hblen; omega)
          constructor
          · intro hex
            obtain ⟨s', hs', hs'on⟩ := hex
            rcases List.mem_cons.mp hs' with rfl | htail
            · rw [hon] at hs'on
              cases hs'on
            · obtain ⟨k, n, heq, hk⟩ := ih1 ⟨s', htail, hs'on⟩
              refine ⟨k, n, ?_, hk⟩
              rw [← List.map_cons, hstep]
              exact heq
          · intro hall
            obtain ⟨s'', hg, heq⟩ := ih2 (fun s' hs' => hall s' (List.mem_cons_of_mem s hs'))
            refine ⟨s'', ?_, ?_⟩
            · simpa using hg
            · rw [← List.map_cons, hstep]
              exact heq

theorem runPollAux_error_spec (appName msg : String) (tail : List FetchResult) :
    ∀ (oks : List (List ProcRecord)) (a : Nat),
    a + oks.length < RECHECK_MAX_ATTEMPTS →
    (∀ s ∈ oks, isAllOnline (appInstancesOf appName s) = false) →
    runPollAux appName a (oks.map FetchResult.ok ++ FetchResult.error msg :: tail)
      = some (a + oks.length + 1, PollOutcome.errored (pollErrorNotif appName msg)) := by
  intro oks
  induction oks with
  | nil =>
    intro a _ _
    simp [runPollAux_cons_error]
  | cons s rest ih =>
    intro a hlt hall
    rw [List.length_cons] at hlt
    rw [List.map_cons, List.cons_append, runPollAux_cons_ok,
      if_neg (by simp [hall s (List.mem_cons_self s rest)]),
      if_neg (by omega),
      ih (a + 1) (by omega) (fun s' hs' => hall s' (List.mem_cons_of_mem s hs'))]
    rw [List.length_cons]
    have harith : a + 1 + rest.length + 1 = a + (rest.length + 1) + 1 := by omega
    rw [harith]

/-! ### Lemmas about the stable-process check -/

theorem checkOneProcess_skipped (restartedApps : List String) (proc : ProcRecord)
    (h : proc.name ∈ restartedApps) : checkOneProcess restartedApps proc = [] := by
  simp [checkOneProcess, h]

theorem checkOneProcess_appName (restartedApps : List String) (proc : ProcRecord)
    (n : Notification) (hn : n ∈ checkOneProcess restartedApps proc) :
    n.appName = proc.name := by
  unfold checkOneProcess at hn
  split_ifs at hn <;> simp at hn <;>
    first
      | (subst hn; rfl)
      | (rcases hn with rfl | rfl <;> rfl)

theorem checkStableProcesses_not_restarted (processes : List ProcRecord)
    (restartedApps : List String) (n : Notification)
    (hn : n ∈ checkStableProcesses processes restartedApps) :
    n.appName ∉ restartedApps := by
  unfold checkStableProcesses at hn
  rcases List.mem_flatMap.mp hn with ⟨p, hp, hnp⟩
  by_cases hr : p.name ∈ restartedApps
  · rw [checkOneProcess_skipped restartedApps p hr] at hnp
    cases hnp
  · rw [checkOneProcess_appName restartedApps p n hnp]
    exact hr

/-! ### Lemmas about the bounded history log -/

theorem logStatusToFile_ok (file : List HistoryLogEntry) (e : HistoryLogEntry) :
    logStatusToFile (ReadStatus.ok file) e = (e :: file).take MAX_HISTORY := rfl

theorem take_append_take {α : Type} (n : Nat) (a b : List α) :
    (a ++ b.take n).take n = (a ++ b).take n := by
  rw [List.take_append_eq_append_take, List.take_append_eq_append_take, List.take_take,
    Nat.min_eq_left (Nat.sub_le n a.length)]

theorem appendAll_eq (entries : List HistoryLogEntry) :
    ∀ initial : List HistoryLogEntry, initial.length ≤ MAX_HISTORY →
    appendAll initial entries = (entries.reverse ++ initial).take MAX_HISTORY := by
  induction entries with
  | nil =>
    intro initial h
    simp [appendAll, List.take_of_length_le h]
  | cons e rest ih =>
    intro initial h
    have hlen : (logStatusToFile (ReadStatus.ok initial) e).length ≤ MAX_HISTORY := by
      rw [logStatusToFile_ok, List.length_take]
      exact Nat.min_le_left _ _
    have hstep : appendAll initial (e :: rest)
        = appendAll (logStatusToFile (ReadStatus.ok initial) e) rest := rfl
    rw [hstep, ih (logStatusToFile (ReadStatus.ok initial) e) hlen, logStatusToFile_ok,
      take_append_take, List.reverse_cons, List.append_assoc, List.singleton_append]

/-! ### The claims -/

/-- Claim C1: for every monitoring cycle and every process name occurring in
the snapshot, if the aggregated restart count (the sum of the `restarts`
field across all instances sharing that name) is strictly greater than the
previously stored total for that name, then the name is added to the
restarted set, exactly one `Process Restart Detected` notification attempt is
made for it, stabilization polling is initiated for it, and the stored total
is updated to the current total. -/
theorem claim_C1 (history : RestartHistory) (processes : List ProcRecord)
    (name : String) (prev : Nat)
    (hmem : processes.any (fun p => p.name == name) = true)
    (hprev : mapGet history name = some prev)
    (hgt : sumRestarts processes name > prev) :
    name ∈ (detectAndHandleRestarts history processes).restartedApps ∧
    restartNotifCount (detectAndHandleRestarts history processes).notifications name = 1 ∧
    pollCount (detectAndHandleRestarts history processes).pollsStarted name = 1 ∧
    mapGet (detectAndHandleRestarts history processes).history name
      = some (sumRestarts processes name) := by
  have htot := mapGet_buildRestartTotals processes name hmem
  have hnd := nodup_mapKeys_buildRestartTotals processes
  obtain ⟨h1, h2, h3⟩ := detectFold_restart name (sumRestarts processes name)
    (buildRestartTotals processes) hnd htot
    { restartedApps := [], notifications := [], pollsStarted := [], history := history }
    prev hprev hgt
  have h4 := detectFold_history name (sumRestarts processes name)
    (buildRestartTotals processes) hnd htot
    { restartedApps := [], notifications := [], pollsStarted := [], history := history }
  exact ⟨h1, by simpa [restartNotifCount] using h2, by simpa [pollCount] using h3, h4⟩

/-- Claim C2 (error-free fetches): the stabilization poller reaches
`Stabilized` iff some sample within the attempt budget has at least one
instance of the polled name with every instance `online`; it never consumes
more than `RECHECK_MAX_ATTEMPTS` samples; and when no sample in the budget is
all-online it reaches `Failed` after exactly `RECHECK_MAX_ATTEMPTS` samples,
emitting the failure notification built from the last sample's instances
(which lists each instance's id and status, or says the process could not be
found when no instance exists). -/
theorem claim_C2 (appName : String) (samples : List (List ProcRecord))
    (hlen : RECHECK_MAX_ATTEMPTS ≤ samples.length) :
    ((∃ k n, startPollingAppStatus appName (samples.map FetchResult.ok)
        = some (k, PollOutcome.stabilized n)) ↔
      ∃ s ∈ samples.take RECHECK_MAX_ATTEMPTS,
        isAllOnline (appInstancesOf appName s) = true) ∧
    (∀ k o, startPollingAppStatus appName (samples.map FetchResult.ok) = some (k, o) →
      k ≤ RECHECK_MAX_ATTEMPTS) ∧
    ((∀ s ∈ samples.take RECHECK_MAX_ATTEMPTS,
        isAllOnline (appInstancesOf appName s) = false) →
      ∃ s, samples.get? (RECHECK_MAX_ATTEMPTS - 1) = some s ∧
        startPollingAppStatus appName (samples.map FetchResult.ok)
          = some (RECHECK_MAX_ATTEMPTS, PollOutcome.failed
              (restartFailedNotif appName (appInstancesOf appName s)))) := by
  obtain ⟨aux1, aux2⟩ := runPollAux_ok_spec appName samples 0 RECHECK_MAX_ATTEMPTS
    (by omega) (by decide) hlen
  have hdef : startPollingAppStatus appName (samples.map FetchResult.ok)
      = runPollAux appName 0 (samples.map FetchResult.ok) := rfl
  by_cases hex : ∃ s ∈ samples.take RECHECK_MAX_ATTEMPTS,
      isAllOnline (appInstancesOf appName s) = true
  · obtain ⟨k, n, heq, hk⟩ := aux1 hex
    refine ⟨⟨fun _ => hex, fun _ => ⟨k, n, by rw [hdef, heq]⟩⟩, ?_, ?_⟩
    · intro k' o' hko
      rw [hdef, heq] at hko
      obtain ⟨h1, -⟩ := Prod.mk.injEq .. ▸ Option.some.inj hko.symm
      omega
    · intro hall
      obtain ⟨s, hs, -⟩ := hex
      have := hall s hs
      simp_all
  · have hall : ∀ s ∈ samples.take RECHECK_MAX_ATTEMPTS,
        isAllOnline (appInstancesOf appName s) = false := by
      intro s hs
      rcases Bool.eq_false_or_eq_true (isAllOnline (appInstancesOf appName s)) with h | h
      · exact absurd ⟨s, hs, h⟩ hex
      · exact h
    obtain ⟨s, hg, heq⟩ := aux2 hall
    refine ⟨⟨?_, fun h => absurd h hex⟩, ?_, fun _ => ⟨s, hg, by rw [hdef, heq]⟩⟩
    · intro hst
      obtain ⟨k, n, hkn⟩ := hst
      rw [hdef, heq] at hkn
      obtain ⟨-, h2⟩ := Prod.mk.injEq .. ▸ Option.some.inj hkn.symm
      cases h2
    · intro k' o' hko
      rw [hdef, heq] at hko
      obtain ⟨h1, -⟩ := Prod.mk.injEq .. ▸ Option.some.inj hko.symm
      omega

/-- Claim C3: notification throttling is keyed by the (subject, title) pair
and not by the message body: starting from a cache with no entry for the key,
a first successful send attempts delivery, and a second send with the same
subject and title (but arbitrary, possibly different, body and color)
attempts delivery iff it happens at least the throttle window after the
first. -/
theorem claim_C3 (cache : ThrottleCache) (t1 t2 : Int)
    (appName title msg1 msg2 color1 color2 : String)
    (h0 : mapGet cache (throttleKey appName title) = none) :
    (sendSlackNotification cache t1 appName title msg1 color1 true).attempted = true ∧
    ((sendSlackNotification
        (sendSlackNotification cache t1 appName title msg1 color1 true).cache
        t2 appName title msg2 color2 true).attempted = true
      ↔ THROTTLE_MS ≤ t2 - t1) := by
  have h1 : sendSlackNotification cache t1 appName title msg1 color1 true
      = { cache := mapSet cache (throttleKey appName title) t1, attempted := true } := by
    simp [sendSlackNotification, h0]
  refine ⟨by rw [h1], ?_⟩
  rw [h1]
  have h2 : mapGet (mapSet cache (throttleKey appName title) t1)
      (throttleKey appName title) = some t1 := mapGet_mapSet_self cache (throttleKey appName title) t1
  by_cases hlt : t2 - t1 < THROTTLE_MS
  · simp [sendSlackNotification, h2, hlt]
  · simp [sendSlackNotification, h2, hlt]
    omega

/-- Claim C4: within a single monitoring cycle, every process record whose
name is in the restarted set is skipped by the stable-process check: no
notification attempted by the stable-process check of that cycle carries its
name. -/
theorem claim_C4 (history : RestartHistory) (processes : List ProcRecord)
    (proc : ProcRecord) (hp : proc ∈ processes)
    (hr : proc.name ∈ (monitorCycle history processes).restartedApps) :
    ∀ n ∈ (monitorCycle history processes).stableNotifs, n.appName ≠ proc.name := by
  intro n hn heq
  have hnot := checkStableProcesses_not_restarted processes
    (detectAndHandleRestarts history processes).restartedApps n hn
  rw [heq] at hnot
  exact hnot hr

/-- Claim C5: the throttle-cache timestamp is recorded only on confirmed
delivery success. After a failed delivery the cache is unchanged and a
delivery attempt was still made (the transport error is caught inside
`sendSlackNotification`, whose embedding is total, so nothing propagates to
the caller); an immediate retry at the very same instant attempts delivery
again; and a successful delivery does record the timestamp under the key. -/
theorem claim_C5 (cache : ThrottleCache) (now : Int)
    (appName title message color message2 color2 : String)
    (h0 : mapGet cache (throttleKey appName title) = none) :
    (sendSlackNotification cache now appName title message color false).cache = cache ∧
    (sendSlackNotification cache now appName title message color false).attempted = true ∧
    (sendSlackNotification
        (sendSlackNotification cache now appName title message color false).cache
        now appName title message2 color2 true).attempted = true ∧
    mapGet (sendSlackNotification cache now appName title message color true).cache
        (throttleKey appName title) = some now := by
  have h1 : sendSlackNotification cache now appName title message color false
      = { cache := cache, attempted := true } := by
    simp [sendSlackNotification, h0]
  refine ⟨by rw [h1], by rw [h1], ?_, ?_⟩
  · rw [h1]
    simp [sendSlackNotification, h0]
  · simp [sendSlackNotification, h0, mapGet_mapSet_self]

/-- Claim C6: for a process name with no previously stored restart total, the
detector records the current aggregated total and emits no alert; and the
startup seeding builds the restart history from the initial snapshot, so a
first cycle over the same snapshot flags nothing and attempts no
notification. -/
theorem claim_C6 (history : RestartHistory) (processes : List ProcRecord) (name : String)
    (hmem : processes.any (fun p => p.name == name) = true)
    (hnone : mapGet history name = none) :
    name ∉ (detectAndHandleRestarts history processes).restartedApps ∧
    restartNotifCount (detectAndHandleRestarts history processes).notifications name = 0 ∧
    mapGet (detectAndHandleRestarts history processes).history name
      = some (sumRestarts processes name) ∧
    (detectAndHandleRestarts (seedRestartHistory processes) processes).notifications = [] ∧
    (detectAndHandleRestarts (seedRestartHistory processes) processes).restartedApps = [] := by
  have htot := mapGet_buildRestartTotals processes name hmem
  have hnd := nodup_mapKeys_buildRestartTotals processes
  obtain ⟨n1, n2, n3⟩ := detectFold_new_name name (sumRestarts processes name)
    (buildRestartTotals processes) hnd htot
    { restartedApps := [], notifications := [], pollsStarted := [], history := history }
    hnone
  have h4 := detectFold_history name (sumRestarts processes name)
    (buildRestartTotals processes) hnd htot
    { restartedApps := [], notifications := [], pollsStarted := [], history := history }
  have hseed : ∀ e ∈ buildRestartTotals processes,
      mapGet (seedRestartHistory processes) e.1 = some e.2 := by
    intro e he
    obtain ⟨k, v⟩ := e
    exact mapGet_eq_some_of_mem (buildRestartTotals processes) k v hnd he
  obtain ⟨e1, e2, e3⟩ := detectFold_no_change (buildRestartTotals processes) hnd
    { restartedApps := [], notifications := [], pollsStarted := [],
      history := seedRestartHistory processes } hseed
  refine ⟨?_, by simpa [restartNotifCount] using n2, h4, e2, e1⟩
  intro hmem'
  have := n1.mp hmem'
  simp at this

/-- Claim C7: after any number of appends the history file holds at most
`MAX_HISTORY` entries, each append prepends (so the file is ordered
most-recent-first: it equals the reversed append sequence followed by the
initial contents), and when the bound is exceeded the dropped entries are the
oldest ones (truncation from the tail, i.e. the file is the `take` of that
sequence). -/
theorem claim_C7 (initial entries : List HistoryLogEntry)
    (hinit : initial.length ≤ MAX_HISTORY) :
    (appendAll initial entries).length ≤ MAX_HISTORY ∧
    appendAll initial entries = (entries.reverse ++ initial).take MAX_HISTORY := by
  have h := appendAll_eq entries initial hinit
  refine ⟨?_, h⟩
  rw [h, List.length_take]
  exact Nat.min_le_left _ _

/-- Claim C8: for a process record not in the restarted set: a non-online
status produces exactly the status alert; an online status produces the
High CPU Usage warning exactly when the CPU exceeds the ceiling and the
High Memory Usage warning exactly when the memory exceeds the ceiling, the
two checks being independent (both, one, or neither can fire, as separate
notifications). -/
theorem claim_C8 (restartedApps : List String) (proc : ProcRecord)
    (hns : proc.name ∉ restartedApps) :
    (proc.status ≠ "online" →
      checkOneProcess restartedApps proc = [statusAlertNotif proc]) ∧
    (proc.status = "online" →
      ((highCpuNotif proc ∈ checkOneProcess restartedApps proc)
        ↔ proc.cpu > THRESHOLDS_CPU) ∧
      ((highMemoryNotif proc ∈ checkOneProcess restartedApps proc)
        ↔ proc.memory > THRESHOLDS_MEMORY) ∧
      (checkOneProcess restartedApps proc).length
        = (if proc.cpu > THRESHOLDS_CPU then 1 else 0)
          + (if proc.memory > THRESHOLDS_MEMORY then 1 else 0)) := by
  have hne : highCpuNotif proc ≠ highMemoryNotif proc := by
    intro h
    have := congrArg Notification.title h
    simp [highCpuNotif, highMemoryNotif] at this
  constructor
  · intro hs
    simp [checkOneProcess, hns, hs]
  · intro hs
    refine ⟨?_, ?_, ?_⟩ <;>
      by_cases hc : proc.cpu > THRESHOLDS_CPU <;>
      by_cases hm : proc.memory > THRESHOLDS_MEMORY <;>
      simp [checkOneProcess, hns, hs, hc, hm, hne, hne.symm]

/-- Claim C9: if a snapshot fetch during stabilization polling raises a
fault, the poller terminates right there in the `Errored` state with a
danger-severity error notification, consuming no further samples regardless
of how many attempts remain in the budget (the result does not depend on the
rest of the stream). -/
theorem claim_C9 (appName msg : String) (okSamples : List (List ProcRecord))
    (tail : List FetchResult)
    (hshort : okSamples.length < RECHECK_MAX_ATTEMPTS)
    (hnotonline : ∀ s ∈ okSamples, isAllOnline (appInstancesOf appName s) = false) :
    startPollingAppStatus appName
        (okSamples.map FetchResult.ok ++ FetchResult.error msg :: tail)
      = some (okSamples.length + 1, PollOutcome.errored (pollErrorNotif appName msg)) ∧
    (pollErrorNotif appName msg).color = "danger" := by
  refine ⟨?_, rfl⟩
  have h := runPollAux_error_spec appName msg tail okSamples 0 (by omega) hnotonline
  simpa [startPollingAppStatus] using h

/-- Claim C10: when reading the history file fails with an error other than
ENOENT, the error is only logged, the in-memory history is treated as empty,
and the subsequent write replaces the file with just the single new entry,
discarding all previously persisted entries. -/
theorem claim_C10 (msg : String) (entry : HistoryLogEntry) :
    logStatusToFile (ReadStatus.otherError msg) entry = [entry] := by
  show (entry :: []).take MAX_HISTORY = [entry]
  rw [show MAX_HISTORY = 1439 + 1 from rfl, List.take_succ_cons, List.take_nil]

/-! ### Concrete witnesses for the claims with hypotheses -/

theorem claim_C1_witness :
    (([apiProc].any (fun p => p.name == "api") = true) ∧
      mapGet [("api", 3)] "api" = some 3 ∧
      sumRestarts [apiProc] "api" > 3) ∧
    ("api" ∈ (detectAndHandleRestarts [("api", 3)] [apiProc]).restartedApps ∧
      restartNotifCount (detectAndHandleRestarts [("api", 3)] [apiProc]).notifications "api" = 1 ∧
      pollCount (detectAndHandleRestarts [("api", 3)] [apiProc]).pollsStarted "api" = 1 ∧
      mapGet (detectAndHandleRestarts [("api", 3)] [apiProc]).history "api"
        = some (sumRestarts [apiProc] "api")) :=
  ⟨⟨by decide, by decide, by decide⟩,
    claim_C1 [("api", 3)] [apiProc] "api" 3 (by decide) (by decide) (by decide)⟩

theorem claim_C2_witness :
    RECHECK_MAX_ATTEMPTS ≤ (List.replicate 12 ([] : List ProcRecord)).length ∧
    (((∃ k n, startPollingAppStatus "api"
          ((List.replicate 12 ([] : List ProcRecord)).map FetchResult.ok)
        = some (k, PollOutcome.stabilized n)) ↔
      ∃ s ∈ (List.replicate 12 ([] : List ProcRecord)).take RECHECK_MAX_ATTEMPTS,
        isAllOnline (appInstancesOf "api" s) = true) ∧
    (∀ k o, startPollingAppStatus "api"
          ((List.replicate 12 ([] : List ProcRecord)).map FetchResult.ok) = some (k, o) →
      k ≤ RECHECK_MAX_ATTEMPTS) ∧
    ((∀ s ∈ (List.replicate 12 ([] : List ProcRecord)).take RECHECK_MAX_ATTEMPTS,
        isAllOnline (appInstancesOf "api" s) = false) →
      ∃ s, (List.replicate 12 ([] : List ProcRecord)).get? (RECHECK_MAX_ATTEMPTS - 1) = some s ∧
        startPollingAppStatus "api"
            ((List.replicate 12 ([] : List ProcRecord)).map FetchResult.ok)
          = some (RECHECK_MAX_ATTEMPTS, PollOutcome.failed
              (restartFailedNotif "api" (appInstancesOf "api" s))))) :=
  ⟨by decide, claim_C2 "api" (List.replicate 12 []) (by decide)⟩

theorem claim_C3_witness :
    mapGet ([] : ThrottleCache) (throttleKey "api" "High CPU Usage") = none ∧
    ((sendSlackNotification [] 0 "api" "High CPU Usage" "85%" "warning" true).attempted = true ∧
      ((sendSlackNotification
          (sendSlackNotification [] 0 "api" "High CPU Usage" "85%" "warning" true).cache
          0 "api" "High CPU Usage" "92%" "warning" true).attempted = true
        ↔ THROTTLE_MS ≤ (0 : Int) - 0)) :=
  ⟨rfl, claim_C3 [] 0 0 "api" "High CPU Usage" "85%" "92%" "warning" "warning" rfl⟩

theorem claim_C4_witness :
    (apiProc ∈ [apiProc] ∧
      "api" ∈ (monitorCycle [("api", 3)] [apiProc]).restartedApps) ∧
    (∀ n ∈ (monitorCycle [("api", 3)] [apiProc]).stableNotifs, n.appName ≠ "api") :=
  ⟨⟨by decide, by decide⟩, claim_C4 [("api", 3)] [apiProc] apiProc (by decide) (by decide)⟩

theorem claim_C5_witness :
    mapGet ([] : ThrottleCache) (throttleKey "api" "Restart Failed") = none ∧
    ((sendSlackNotification [] 7 "api" "Restart Failed" "m1" "danger" false).cache = [] ∧
      (sendSlackNotification [] 7 "api" "Restart Failed" "m1" "danger" false).attempted = true ∧
      (sendSlackNotification
          (sendSlackNotification [] 7 "api" "Restart Failed" "m1" "danger" false).cache
          7 "api" "Restart Failed" "m2" "danger" true).attempted = true ∧
      mapGet (sendSlackNotification [] 7 "api" "Restart Failed" "m1" "danger" true).cache
          (throttleKey "api" "Restart Failed") = some 7) :=
  ⟨rfl, claim_C5 [] 7 "api" "Restart Failed" "m1" "danger" "m2" "danger" rfl⟩

theorem claim_C6_witness :
    (([apiProc].any (fun p => p.name == "api") = true) ∧
      mapGet ([] : RestartHistory) "api" = none) ∧
    ("api" ∉ (detectAndHandleRestarts [] [apiProc]).restartedApps ∧
      restartNotifCount (detectAndHandleRestarts [] [apiProc]).notifications "api" = 0 ∧
      mapGet (detectAndHandleRestarts [] [apiProc]).history "api"
        = some (sumRestarts [apiProc] "api") ∧
      (detectAndHandleRestarts (seedRestartHistory [apiProc]) [apiProc]).notifications = [] ∧
      (detectAndHandleRestarts (seedRestartHistory [apiProc]) [apiProc]).restartedApps = []) :=
  ⟨⟨by decide, rfl⟩, claim_C6 [] [apiProc] "api" (by decide) rfl⟩

theorem claim_C7_witness :
    ([] : List HistoryLogEntry).length ≤ MAX_HISTORY ∧
    ((appendAll [] [{ timestamp := "t1", processes := [] }]).length ≤ MAX_HISTORY ∧
      appendAll [] [{ timestamp := "t1", processes := [] }]
        = (([{ timestamp := "t1", processes := [] }] : List HistoryLogEntry).reverse
            ++ []).take MAX_HISTORY) :=
  ⟨by decide, claim_C7 [] [{ timestamp := "t1", processes := [] }] (by decide)⟩

theorem claim_C8_witness :
    workerProc.name ∉ ([] : List String) ∧
    ((workerProc.status ≠ "online" →
        checkOneProcess [] workerProc = [statusAlertNotif workerProc]) ∧
      (workerProc.status = "online" →
        ((highCpuNotif workerProc ∈ checkOneProcess [] workerProc)
          ↔ workerProc.cpu > THRESHOLDS_CPU) ∧
        ((highMemoryNotif workerProc ∈ checkOneProcess [] workerProc)
          ↔ workerProc.memory > THRESHOLDS_MEMORY) ∧
        (checkOneProcess [] workerProc).length
          = (if workerProc.cpu > THRESHOLDS_CPU then 1 else 0)
            + (if workerProc.memory > THRESHOLDS_MEMORY then 1 else 0))) :=
  ⟨by decide, claim_C8 [] workerProc (by decide)⟩

theorem claim_C9_witness :
    (([] : List (List ProcRecord)).length < RECHECK_MAX_ATTEMPTS ∧
      (∀ s ∈ ([] : List (List ProcRecord)), isAllOnline (appInstancesOf "api" s) = false)) ∧
    (startPollingAppStatus "api"
        (([] : List (List ProcRecord)).map FetchResult.ok
          ++ FetchResult.error "ECONNRESET" :: [])
      = some (([] : List (List ProcRecord)).length + 1,
          PollOutcome.errored (pollErrorNotif "api" "ECONNRESET")) ∧
      (pollErrorNotif "api" "ECONNRESET").color = "danger") :=
  ⟨⟨by decide, by simp⟩, claim_C9 "api" "ECONNRESET" [] [] (by decide) (by simp)⟩

end PM2Monitor
